import Mathlib

/-!
Verification of the storage-pool / storage-api reference engine.

This file gives a shallow embedding, in Lean, of the in-memory key-value
store (`MemKvPool` / `MemKvConn` / `MemKvTxn`), the in-memory stack store
(`MemStackTxn`), and the generic transaction coordinator (`runTransaction`)
of the repository, and proves (or refutes) the specified properties of
those components.

Conventions of the embedding:
* JavaScript plain objects used as stores are modelled as association
  lists `List (String × V)`; reading an absent key yields `none`
  (JavaScript `undefined`).
* Asynchronous methods are modelled as pure state-transition functions;
  a method that throws is modelled with `Except`.
* Mutation of shared objects is modelled by explicit state passing: each
  operation takes the current shared state and returns the new one.
-/

namespace StoragePoolSpec

/-! ## Plain-object stores

A JavaScript `PlainObject` used as a backing store: an association list
from string keys to values.  `Store.get` is property read (absent key
reads as `undefined` = `none`), `Store.set` is property assignment,
`Store.del` is the `delete` operator. -/

abbrev Store (V : Type) : Type := List (String × V)

def Store.get {V : Type} (s : Store V) (k : String) : Option V :=
  match s with
  | [] => none
  | (k', v) :: rest => if k' = k then some v else Store.get rest k

def Store.set {V : Type} (s : Store V) (k : String) (v : V) : Store V :=
  match s with
  | [] => [(k, v)]
  | (k', v') :: rest =>
    if k' = k then (k, v) :: rest else (k', v') :: Store.set rest k v

def Store.del {V : Type} (s : Store V) (k : String) : Store V :=
  match s with
  | [] => []
  | (k', v') :: rest =>
    if k' = k then rest else (k', v') :: Store.del rest k

/-! ## Errors thrown by the in-memory engine -/

inductive KvErr : Type
  | poolClosed
  | connClosed
  | txnComplete
  | txnReadOnly
  deriving DecidableEq, Repr

/-! ## MemKvTxn

Embeds the `MemKvTxn` class (mem-kv `mem-kv.ts`).  The source keeps:
`#store` (the shared backing object, here passed explicitly), `#temp`
(`Object.create(store)`: an overlay object whose prototype is the live
shared store), `#ops` (the buffered operation list), `#readonly` and
`#done`.

The overlay `#temp` is modelled as `Store (Option V)`: an own-property of
the overlay maps a key to `some v` after `set`, or to `none` after
`delete` (the source writes `this.#temp[key] = undefined`); a key with no
own-property falls through the prototype chain to the *current* shared
store. -/

inductive MemOp (V : Type) : Type
  | set (key : String) (val : V)
  | del (key : String)
  deriving DecidableEq, Repr

structure MemKvTxn (V : Type) : Type where
  temp : Store (Option V)
  ops : List (MemOp V)
  rdonly : Bool
  done : Bool
  deriving DecidableEq, Repr

/-- Embeds the `MemKvTxn` constructor: fresh overlay with no own
properties, empty op buffer, `#readonly = opts.readOnly === true`,
`#done = false`. -/
def MemKvTxn.init (V : Type) (ro : Bool) : MemKvTxn V :=
  { temp := [], ops := [], rdonly := ro, done := false }

/-- Embeds `MemKvTxn.set`: throws if done, throws if read-only, else
appends a `set` op to the buffer and writes the overlay.  The shared
store is returned untouched. -/
def MemKvTxn.set {V : Type} (t : MemKvTxn V) (s : Store V) (k : String) (v : V) :
    Except KvErr (MemKvTxn V × Store V) :=
  if t.done then .error .txnComplete
  else if t.rdonly then .error .txnReadOnly
  else .ok ({ t with ops := t.ops ++ [.set k v], temp := t.temp.set k (some v) }, s)

/-- Embeds `MemKvTxn.get`: throws if done, else reads
`this.#temp[key]` — the overlay's own property if present, otherwise the
prototype, i.e. the current shared store. -/
def MemKvTxn.get {V : Type} (t : MemKvTxn V) (s : Store V) (k : String) :
    Except KvErr (Option V × MemKvTxn V × Store V) :=
  if t.done then .error .txnComplete
  else
    .ok (match t.temp.get k with
         | some ov => ov
         | none => s.get k, t, s)

/-- Embeds `MemKvTxn.delete`: throws if done, throws if read-only, else
appends a `delete` op and writes `undefined` to the overlay
(`this.#temp[key] = undefined`).  The shared store is untouched. -/
def MemKvTxn.del {V : Type} (t : MemKvTxn V) (s : Store V) (k : String) :
    Except KvErr (MemKvTxn V × Store V) :=
  if t.done then .error .txnComplete
  else if t.rdonly then .error .txnReadOnly
  else .ok ({ t with ops := t.ops ++ [.del k], temp := t.temp.set k none }, s)

/-- Replay of one buffered op against the shared store, as in the
`switch` inside `MemKvTxn.commit`. -/
def applyMemOp {V : Type} (s : Store V) : MemOp V → Store V
  | .set k v => s.set k v
  | .del k => s.del k

/-- Embeds `MemKvTxn.commit`: throws if done, else sets `#done = true`
and replays every buffered op against the shared store in original
order.  (The trailing `this.#close()` only invokes the owning
connection's completion callback, which never touches the store; the
connection side is modelled separately.) -/
def MemKvTxn.commit {V : Type} (t : MemKvTxn V) (s : Store V) :
    Except KvErr (MemKvTxn V × Store V) :=
  if t.done then .error .txnComplete
  else .ok ({ t with done := true }, t.ops.foldl applyMemOp s)

/-- Embeds `MemKvTxn.rollback`: throws if done, else sets `#done = true`
and discards the buffer without touching the shared store. -/
def MemKvTxn.rollback {V : Type} (t : MemKvTxn V) (s : Store V) :
    Except KvErr (MemKvTxn V × Store V) :=
  if t.done then .error .txnComplete
  else .ok ({ t with done := true }, s)

/-! A uniform step relation over the five public methods of `MemKvTxn`,
so that properties over arbitrary call sequences can be stated. -/

inductive KvTxnCall (V : Type) : Type
  | set (key : String) (val : V)
  | get (key : String)
  | del (key : String)
  | commit
  | rollback
  deriving DecidableEq, Repr

def kvTxnStep {V : Type} (t : MemKvTxn V) (s : Store V) :
    KvTxnCall V → Except KvErr (MemKvTxn V × Store V)
  | .set k v => MemKvTxn.set t s k v
  | .get k => (MemKvTxn.get t s k).map (·.2)
  | .del k => MemKvTxn.del t s k
  | .commit => MemKvTxn.commit t s
  | .rollback => MemKvTxn.rollback t s

/-- Run one call; a call that throws leaves the transaction and the
store as they were (the JavaScript methods validate before mutating). -/
def kvTxnStepK {V : Type} (p : MemKvTxn V × Store V) (c : KvTxnCall V) :
    MemKvTxn V × Store V :=
  match kvTxnStep p.1 p.2 c with
  | .ok r => r
  | .error _ => p

def kvTxnRun {V : Type} (p : MemKvTxn V × Store V) (cs : List (KvTxnCall V)) :
    MemKvTxn V × Store V :=
  cs.foldl kvTxnStepK p

/-- Keys whose overlay entry a call would touch. -/
def KvTxnCall.touches {V : Type} : KvTxnCall V → String → Prop
  | .set k _, k' => k = k'
  | .del k, k' => k = k'
  | .get _, _ => False
  | .commit, _ => False
  | .rollback, _ => False

instance {V : Type} (c : KvTxnCall V) (k : String) : Decidable (c.touches k) := by
  cases c <;> simp [KvTxnCall.touches] <;> infer_instance

/-! ## MemKvConn (storage operations)

Embeds the store-facing part of the `MemKvConn` class.  The shared store
is passed explicitly; the pool-facing lifecycle part is modelled further
below. -/

structure MemKvConnSt : Type where
  id : Nat
  closed : Bool
  keepOpen : Bool
  hasWaitClose : Bool
  txn : Option Nat
  deriving DecidableEq, Repr

/-- Embeds `MemKvConn.set`: throws if closed, else assigns directly to
the shared backing store (`this.#store[key] = val`). -/
def MemKvConnSt.set {V : Type} (c : MemKvConnSt) (s : Store V) (k : String) (v : V) :
    Except KvErr (Store V) :=
  if c.closed then .error .connClosed else .ok (s.set k v)

/-- Embeds `MemKvConn.get`: throws if closed, else reads the shared
backing store. -/
def MemKvConnSt.get {V : Type} (c : MemKvConnSt) (s : Store V) (k : String) :
    Except KvErr (Option V) :=
  if c.closed then .error .connClosed else .ok (s.get k)

/-- Embeds `MemKvConn.delete`: throws if closed, else
`delete this.#store[key]`. -/
def MemKvConnSt.del {V : Type} (c : MemKvConnSt) (s : Store V) (k : String) :
    Except KvErr (Store V) :=
  if c.closed then .error .connClosed else .ok (s.del k)

/-! ## Basic store lemmas -/

theorem Store.get_set_self {V : Type} (s : Store V) (k : String) (v : V) :
    (s.set k v).get k = some v := by
  induction s with
  | nil => simp [Store.set, Store.get]
  | cons hd tl ih =>
    obtain ⟨k', v'⟩ := hd
    by_cases h : k' = k <;> simp [Store.set, Store.get, h, ih]

theorem Store.get_set_ne {V : Type} (s : Store V) (k' k : String) (v : V)
    (h : k' ≠ k) : (s.set k' v).get k = s.get k := by
  induction s with
  | nil => simp [Store.set, Store.get, h]
  | cons hd tl ih =>
    obtain ⟨k0, v0⟩ := hd
    by_cases h0 : k0 = k'
    · subst h0
      simp [Store.set, Store.get, h]
    · simp [Store.set, Store.get, h0, ih]

/-! ## Lemmas about single transaction steps -/

theorem kvTxnStepK_store_of_ne_commit {V : Type} (p : MemKvTxn V × Store V)
    (c : KvTxnCall V) (h : c ≠ .commit) : (kvTxnStepK p c).2 = p.2 := by
  obtain ⟨t, s⟩ := p
  cases c with
  | set k v =>
    cases hd : t.done <;> cases hro : t.rdonly <;>
      simp [kvTxnStepK, kvTxnStep, MemKvTxn.set, hd, hro]
  | get k =>
    cases hd : t.done <;>
      simp [kvTxnStepK, kvTxnStep, MemKvTxn.get, Except.map, hd]
  | del k =>
    cases hd : t.done <;> cases hro : t.rdonly <;>
      simp [kvTxnStepK, kvTxnStep, MemKvTxn.del, hd, hro]
  | commit => exact absurd rfl h
  | rollback =>
    cases hd : t.done <;>
      simp [kvTxnStepK, kvTxnStep, MemKvTxn.rollback, hd]

theorem kvTxnStepK_done_preserved {V : Type} (p : MemKvTxn V × Store V)
    (c : KvTxnCall V) (hc : c ≠ .commit) (hr : c ≠ .rollback) :
    (kvTxnStepK p c).1.done = p.1.done := by
  obtain ⟨t, s⟩ := p
  cases c with
  | set k v =>
    cases hd : t.done <;> cases hro : t.rdonly <;>
      simp [kvTxnStepK, kvTxnStep, MemKvTxn.set, hd, hro]
  | get k =>
    cases hd : t.done <;>
      simp [kvTxnStepK, kvTxnStep, MemKvTxn.get, Except.map, hd]
  | del k =>
    cases hd : t.done <;> cases hro : t.rdonly <;>
      simp [kvTxnStepK, kvTxnStep, MemKvTxn.del, hd, hro]
  | commit => exact absurd rfl hc
  | rollback => exact absurd rfl hr

theorem kvTxnStepK_temp_preserved {V : Type} (p : MemKvTxn V × Store V)
    (c : KvTxnCall V) (k : String) (hk : ¬ c.touches k) :
    (kvTxnStepK p c).1.temp.get k = p.1.temp.get k := by
  obtain ⟨t, s⟩ := p
  cases c with
  | set k' v =>
    have hne : k' ≠ k := fun h => hk h
    cases hd : t.done <;> cases hro : t.rdonly <;>
      simp [kvTxnStepK, kvTxnStep, MemKvTxn.set, hd, hro,
        Store.get_set_ne t.temp k' k (some v) hne]
  | get k' =>
    cases hd : t.done <;>
      simp [kvTxnStepK, kvTxnStep, MemKvTxn.get, Except.map, hd]
  | del k' =>
    have hne : k' ≠ k := fun h => hk h
    cases hd : t.done <;> cases hro : t.rdonly <;>
      simp [kvTxnStepK, kvTxnStep, MemKvTxn.del, hd, hro,
        Store.get_set_ne t.temp k' k none hne]
  | commit =>
    cases hd : t.done <;>
      simp [kvTxnStepK, kvTxnStep, MemKvTxn.commit, hd]
  | rollback =>
    cases hd : t.done <;>
      simp [kvTxnStepK, kvTxnStep, MemKvTxn.rollback, hd]

theorem kvTxnRun_store_of_no_commit {V : Type} (p : MemKvTxn V × Store V)
    (cs : List (KvTxnCall V)) (h : KvTxnCall.commit ∉ cs) :
    (kvTxnRun p cs).2 = p.2 := by
  induction cs generalizing p with
  | nil => rfl
  | cons c rest ih =>
    have hc : c ≠ KvTxnCall.commit := fun hh => h (hh ▸ List.mem_cons_self c rest)
    have hrest : KvTxnCall.commit ∉ rest := fun hh => h (List.mem_cons_of_mem c hh)
    have hstep : kvTxnRun p (c :: rest) = kvTxnRun (kvTxnStepK p c) rest := rfl
    rw [hstep, ih (kvTxnStepK p c) hrest, kvTxnStepK_store_of_ne_commit p c hc]

theorem kvTxnRun_done_preserved {V : Type} (p : MemKvTxn V × Store V)
    (cs : List (KvTxnCall V)) (hc : KvTxnCall.commit ∉ cs)
    (hr : KvTxnCall.rollback ∉ cs) :
    (kvTxnRun p cs).1.done = p.1.done := by
  induction cs generalizing p with
  | nil => rfl
  | cons c rest ih =>
    have h1 : c ≠ KvTxnCall.commit := fun hh => hc (hh ▸ List.mem_cons_self c rest)
    have h2 : c ≠ KvTxnCall.rollback := fun hh => hr (hh ▸ List.mem_cons_self c rest)
    have hstep : kvTxnRun p (c :: rest) = kvTxnRun (kvTxnStepK p c) rest := rfl
    rw [hstep, ih (kvTxnStepK p c) (fun hh => hc (List.mem_cons_of_mem c hh))
      (fun hh => hr (List.mem_cons_of_mem c hh))]
    exact kvTxnStepK_done_preserved p c h1 h2

theorem kvTxnRun_temp_preserved {V : Type} (p : MemKvTxn V × Store V)
    (cs : List (KvTxnCall V)) (k : String) (hk : ∀ c ∈ cs, ¬ c.touches k) :
    (kvTxnRun p cs).1.temp.get k = p.1.temp.get k := by
  induction cs generalizing p with
  | nil => rfl
  | cons c rest ih =>
    have hstep : kvTxnRun p (c :: rest) = kvTxnRun (kvTxnStepK p c) rest := rfl
    rw [hstep, ih (kvTxnStepK p c) (fun c' hc' => hk c' (List.mem_cons_of_mem c hc'))]
    exact kvTxnStepK_temp_preserved p c k (hk c (List.mem_cons_self c rest))

theorem kvTxnStep_done_error {V : Type} (t : MemKvTxn V) (s : Store V)
    (c : KvTxnCall V) (h : t.done = true) :
    kvTxnStep t s c = .error .txnComplete := by
  cases c <;>
    simp [kvTxnStep, MemKvTxn.set, MemKvTxn.get, MemKvTxn.del,
      MemKvTxn.commit, MemKvTxn.rollback, h, Except.map]

/-! ## Claim theorems about MemKvTxn -/

/-- C1: writes buffered inside an uncommitted transaction are visible to
reads within that same transaction (after `set k v` a `get k` inside the
transaction returns the pending value, and after `delete k` it returns
`undefined`), no method of the transaction other than `commit` mutates
the shared backing store (any call sequence avoiding `commit` leaves the
store exactly as it was, errors included), and in particular `rollback`
merely marks the transaction done, so after it the shared store equals
its pre-transaction state. -/
theorem memKvTxn_isolation {V : Type} (t : MemKvTxn V) (s : Store V)
    (cs : List (KvTxnCall V)) (k : String) (v : V)
    (hnc : KvTxnCall.commit ∉ cs) (hd : t.done = false) (hro : t.rdonly = false) :
    ((kvTxnRun (t, s) cs).2 = s)
    ∧ (MemKvTxn.set t s k v =
        .ok ({ t with ops := t.ops ++ [.set k v], temp := t.temp.set k (some v) }, s))
    ∧ (MemKvTxn.get
        { t with ops := t.ops ++ [.set k v], temp := t.temp.set k (some v) } s k =
        .ok (some v,
          { t with ops := t.ops ++ [.set k v], temp := t.temp.set k (some v) }, s))
    ∧ (MemKvTxn.del t s k =
        .ok ({ t with ops := t.ops ++ [.del k], temp := t.temp.set k none }, s))
    ∧ (MemKvTxn.get
        { t with ops := t.ops ++ [.del k], temp := t.temp.set k none } s k =
        .ok (none, { t with ops := t.ops ++ [.del k], temp := t.temp.set k none }, s))
    ∧ (MemKvTxn.rollback t s = .ok ({ t with done := true }, s)) := by
  refine ⟨kvTxnRun_store_of_no_commit (t, s) cs hnc, ?_, ?_, ?_, ?_, ?_⟩ <;>
    simp [MemKvTxn.set, MemKvTxn.get, MemKvTxn.del, MemKvTxn.rollback, hd, hro,
      Store.get_set_self]

/-- C1 witness at concrete inputs: a fresh read-write transaction over
the store `[("a", 1)]`. -/
theorem memKvTxn_isolation_witness :
    (KvTxnCall.commit ∉
      [KvTxnCall.set "b" (2 : Nat), KvTxnCall.get "b", KvTxnCall.del "a",
        KvTxnCall.rollback])
    ∧ ((MemKvTxn.init Nat false).done = false)
    ∧ ((MemKvTxn.init Nat false).rdonly = false)
    ∧ (((kvTxnRun (MemKvTxn.init Nat false, [("a", 1)])
          [KvTxnCall.set "b" (2 : Nat), KvTxnCall.get "b", KvTxnCall.del "a",
            KvTxnCall.rollback]).2 = [("a", 1)])
      ∧ (MemKvTxn.set (MemKvTxn.init Nat false) [("a", 1)] "b" 2 =
          .ok ({ MemKvTxn.init Nat false with
                  ops := (MemKvTxn.init Nat false).ops ++ [.set "b" 2],
                  temp := (MemKvTxn.init Nat false).temp.set "b" (some 2) },
            [("a", 1)]))
      ∧ (MemKvTxn.get
          { MemKvTxn.init Nat false with
              ops := (MemKvTxn.init Nat false).ops ++ [.set "b" 2],
              temp := (MemKvTxn.init Nat false).temp.set "b" (some 2) }
          [("a", 1)] "b" =
          .ok (some 2,
            { MemKvTxn.init Nat false with
                ops := (MemKvTxn.init Nat false).ops ++ [.set "b" 2],
                temp := (MemKvTxn.init Nat false).temp.set "b" (some 2) },
            [("a", 1)]))
      ∧ (MemKvTxn.del (MemKvTxn.init Nat false) [("a", 1)] "b" =
          .ok ({ MemKvTxn.init Nat false with
                  ops := (MemKvTxn.init Nat false).ops ++ [.del "b"],
                  temp := (MemKvTxn.init Nat false).temp.set "b" none },
            [("a", 1)]))
      ∧ (MemKvTxn.get
          { MemKvTxn.init Nat false with
              ops := (MemKvTxn.init Nat false).ops ++ [.del "b"],
              temp := (MemKvTxn.init Nat false).temp.set "b" none }
          [("a", 1)] "b" =
          .ok (none,
            { MemKvTxn.init Nat false with
                ops := (MemKvTxn.init Nat false).ops ++ [.del "b"],
                temp := (MemKvTxn.init Nat false).temp.set "b" none },
            [("a", 1)]))
      ∧ (MemKvTxn.rollback (MemKvTxn.init Nat false) [("a", 1)] =
          .ok ({ MemKvTxn.init Nat false with done := true }, [("a", 1)]))) :=
  ⟨by decide, rfl, rfl,
    memKvTxn_isolation (MemKvTxn.init Nat false) [("a", 1)]
      [KvTxnCall.set "b" (2 : Nat), KvTxnCall.get "b", KvTxnCall.del "a",
        KvTxnCall.rollback] "b" 2 (by decide) rfl rfl⟩

/-- C7: on a not-yet-done transaction `commit` and `rollback` each
succeed and set the done flag; any transaction whose done flag is set
fails every call (set, get, delete, a second commit or a second
rollback, in any combination) with the transaction-complete error, and
the failing call leaves the transaction and store unchanged: there is no
transition out of the done state. -/
theorem memKvTxn_done_terminal {V : Type} (t : MemKvTxn V) (s : Store V)
    (hd : t.done = false) :
    (MemKvTxn.commit t s = .ok ({ t with done := true }, t.ops.foldl applyMemOp s))
    ∧ (MemKvTxn.rollback t s = .ok ({ t with done := true }, s))
    ∧ (∀ (t' : MemKvTxn V) (c : KvTxnCall V) (s'' : Store V), t'.done = true →
        kvTxnStep t' s'' c = .error .txnComplete
          ∧ kvTxnStepK (t', s'') c = (t', s'')) := by
  refine ⟨by simp [MemKvTxn.commit, hd], by simp [MemKvTxn.rollback, hd],
    fun t' c s'' hd' => ⟨kvTxnStep_done_error t' s'' c hd', ?_⟩⟩
  simp [kvTxnStepK, kvTxnStep_done_error t' s'' c hd']

/-- C7 witness at concrete inputs: a fresh transaction, then each later
call is checked on the committed state. -/
theorem memKvTxn_done_terminal_witness :
    ((MemKvTxn.init Nat false).done = false)
    ∧ ((MemKvTxn.commit (MemKvTxn.init Nat false) [] =
        .ok ({ MemKvTxn.init Nat false with done := true },
          (MemKvTxn.init Nat false).ops.foldl applyMemOp []))
      ∧ (MemKvTxn.rollback (MemKvTxn.init Nat false) [] =
        .ok ({ MemKvTxn.init Nat false with done := true }, []))
      ∧ (∀ (t' : MemKvTxn Nat) (c : KvTxnCall Nat) (s'' : Store Nat),
          t'.done = true →
          kvTxnStep t' s'' c = .error .txnComplete
            ∧ kvTxnStepK (t', s'') c = (t', s''))) :=
  ⟨rfl, memKvTxn_done_terminal (MemKvTxn.init Nat false) [] rfl⟩

/-- C10: the key-value transaction takes no snapshot at begin time.  For
any key the transaction's own calls never touched, a read inside the
still-open transaction falls through the overlay to the live shared
store, so a direct connection-level `set` performed after the
transaction began is immediately visible inside the uncommitted
transaction. -/
theorem memKvTxn_no_snapshot {V : Type} (ro : Bool) (s s2 : Store V)
    (cs : List (KvTxnCall V)) (k : String) (v : V) (c : MemKvConnSt)
    (hk : ∀ cc ∈ cs, ¬ cc.touches k) (hc : KvTxnCall.commit ∉ cs)
    (hr : KvTxnCall.rollback ∉ cs) (hcl : c.closed = false) :
    (MemKvConnSt.set c s2 k v = .ok (s2.set k v))
    ∧ (MemKvTxn.get (kvTxnRun (MemKvTxn.init V ro, s) cs).1 (s2.set k v) k =
        .ok (some v, (kvTxnRun (MemKvTxn.init V ro, s) cs).1, s2.set k v)) := by
  constructor
  · simp [MemKvConnSt.set, hcl]
  · have hdone : (kvTxnRun (MemKvTxn.init V ro, s) cs).1.done = false :=
      kvTxnRun_done_preserved (MemKvTxn.init V ro, s) cs hc hr
    have htemp : (kvTxnRun (MemKvTxn.init V ro, s) cs).1.temp.get k = none :=
      kvTxnRun_temp_preserved (MemKvTxn.init V ro, s) cs k hk
    simp [MemKvTxn.get, hdone, htemp, Store.get_set_self]

/-- C10 witness at concrete inputs: a transaction that wrote key `b`
observes a connection-level write to the untouched key `a`. -/
theorem memKvTxn_no_snapshot_witness :
    (∀ cc ∈ [KvTxnCall.set "b" (2 : Nat), KvTxnCall.get "a"], ¬ cc.touches "a")
    ∧ (KvTxnCall.commit ∉ [KvTxnCall.set "b" (2 : Nat), KvTxnCall.get "a"])
    ∧ (KvTxnCall.rollback ∉ [KvTxnCall.set "b" (2 : Nat), KvTxnCall.get "a"])
    ∧ ((⟨0, false, true, false, none⟩ : MemKvConnSt).closed = false)
    ∧ ((MemKvConnSt.set (⟨0, false, true, false, none⟩ : MemKvConnSt)
          ([] : Store Nat) "a" 7 = .ok (Store.set [] "a" 7))
      ∧ (MemKvTxn.get
          (kvTxnRun (MemKvTxn.init Nat false, [])
            [KvTxnCall.set "b" (2 : Nat), KvTxnCall.get "a"]).1
          (Store.set [] "a" 7) "a" =
          .ok (some 7,
            (kvTxnRun (MemKvTxn.init Nat false, [])
              [KvTxnCall.set "b" (2 : Nat), KvTxnCall.get "a"]).1,
            Store.set [] "a" 7))) :=
  ⟨by decide, by decide, by decide, rfl,
    memKvTxn_no_snapshot false [] [] [KvTxnCall.set "b" 2, KvTxnCall.get "a"]
      "a" 7 ⟨0, false, true, false, none⟩ (by decide) (by decide) (by decide) rfl⟩

/-! ## MemKvPool

Embeds the pool bookkeeping of the `MemKvPool` class.  Connections and
queued requests are identified by numeric ids; `idle` is the source's
`#pool` array, `active` is `#active`, `reqQueue` is `#reqQueue` in FIFO
order (`push` appends at the tail, `shift` removes the head).  `nextConn`
and `nextReq` model allocation of fresh connection objects and fresh
request handles. -/

structure PoolState : Type where
  maxCnt : Nat
  closed : Bool
  reqQueue : List Nat
  active : List Nat
  idle : List Nat
  nextConn : Nat
  nextReq : Nat
  deriving DecidableEq, Repr

/-- Embeds the `MemKvPool` constructor / `getPool`. -/
def PoolState.init (n : Nat) : PoolState :=
  { maxCnt := n, closed := false, reqQueue := [], active := [], idle := [],
    nextConn := 0, nextReq := 0 }

inductive ConnResult : Type
  | errPoolClosed
  | resolved (connId : Nat)
  | queued (reqId : Nat)
  deriving DecidableEq, Repr

/-- Embeds `MemKvPool.conn`: throw if closed; if the idle list is
non-empty, shift its head, reset it and push it onto `active`, resolving
immediately; else if fewer than `maxCnt` connections are active,
construct a fresh connection, push it onto `active` and resolve
immediately; otherwise push a request handle onto the FIFO queue and
leave the caller waiting.  (Whether the queued handle is the cancelable
variant depends only on `ctx.canceler`; the pool bookkeeping is
identical in both branches and the handle internals are modelled
separately.) -/
def PoolState.connStep (p : PoolState) : PoolState × ConnResult :=
  if p.closed then (p, .errPoolClosed)
  else
    match p.idle with
    | c :: rest =>
      ({ p with idle := rest, active := p.active ++ [c] }, .resolved c)
    | [] =>
      if p.active.length < p.maxCnt then
        ({ p with active := p.active ++ [p.nextConn], nextConn := p.nextConn + 1 },
          .resolved p.nextConn)
      else
        ({ p with reqQueue := p.reqQueue ++ [p.nextReq], nextReq := p.nextReq + 1 },
          .queued p.nextReq)

inductive ReturnResult : Type
  | errNotInPool
  | granted (reqId : Nat) (connId : Nat)
  | pooled
  deriving DecidableEq, Repr

/-- Embeds `MemKvPool.return`: throw if the connection is not in
`active`; if a request is waiting, shift the head of the FIFO queue and
hand the connection directly to it (the connection stays in `active` and
is never placed on the idle list); otherwise splice the connection out
of `active` and push it onto the idle list. -/
def PoolState.returnStep (p : PoolState) (c : Nat) : PoolState × ReturnResult :=
  if c ∈ p.active then
    match p.reqQueue with
    | r :: rest => ({ p with reqQueue := rest }, .granted r c)
    | [] => ({ p with active := p.active.erase c, idle := p.idle ++ [c] }, .pooled)
  else (p, .errNotInPool)

/-- Iterate `conn` requests. -/
def poolConnN (p : PoolState) : Nat → PoolState × List ConnResult
  | 0 => (p, [])
  | n + 1 =>
    let s1 := p.connStep
    let s2 := poolConnN s1.1 n
    (s2.1, s1.2 :: s2.2)

/-- Iterate `return` calls over a list of connections. -/
def poolReturnSeq (p : PoolState) : List Nat → PoolState × List ReturnResult
  | [] => (p, [])
  | c :: cs =>
    let s1 := p.returnStep c
    let s2 := poolReturnSeq s1.1 cs
    (s2.1, s1.2 :: s2.2)

/-! ## Pool lemmas -/

theorem poolConnN_succ_fst (p : PoolState) (m : Nat) :
    (poolConnN p (m + 1)).1 = (poolConnN p.connStep.1 m).1 := rfl

theorem poolConnN_succ_snd (p : PoolState) (m : Nat) :
    (poolConnN p (m + 1)).2 = p.connStep.2 :: (poolConnN p.connStep.1 m).2 := rfl

theorem poolReturnSeq_cons_fst (p : PoolState) (c : Nat) (cs : List Nat) :
    (poolReturnSeq p (c :: cs)).1 = (poolReturnSeq (p.returnStep c).1 cs).1 := rfl

theorem poolReturnSeq_cons_snd (p : PoolState) (c : Nat) (cs : List Nat) :
    (poolReturnSeq p (c :: cs)).2 =
      (p.returnStep c).2 :: (poolReturnSeq (p.returnStep c).1 cs).2 := rfl

theorem poolConnN_fill (m : Nat) (p : PoolState) (hcl : p.closed = false)
    (hid : p.idle = []) (hcap : p.active.length + m ≤ p.maxCnt) :
    ((poolConnN p m).1.closed = false)
    ∧ ((poolConnN p m).1.idle = [])
    ∧ ((poolConnN p m).1.active.length = p.active.length + m)
    ∧ ((poolConnN p m).1.maxCnt = p.maxCnt)
    ∧ ((poolConnN p m).1.reqQueue = p.reqQueue)
    ∧ (∀ r ∈ (poolConnN p m).2, ∃ cid, r = ConnResult.resolved cid) := by
  induction m generalizing p with
  | zero => exact ⟨hcl, hid, rfl, rfl, rfl, by simp [poolConnN]⟩
  | succ m ih =>
    have hlt : p.active.length < p.maxCnt := by omega
    have hstep : p.connStep =
        ({ p with active := p.active ++ [p.nextConn], nextConn := p.nextConn + 1 },
          .resolved p.nextConn) := by
      simp [PoolState.connStep, hcl, hid, hlt]
    have h1 : p.connStep.1 =
        { p with active := p.active ++ [p.nextConn], nextConn := p.nextConn + 1 } := by
      rw [hstep]
    have h2 : p.connStep.2 = ConnResult.resolved p.nextConn := by rw [hstep]
    have ih' := ih
      { p with active := p.active ++ [p.nextConn], nextConn := p.nextConn + 1 }
      hcl hid (by simp; omega)
    refine ⟨?_, ?_, ?_, ?_, ?_, ?_⟩
    · rw [poolConnN_succ_fst, h1]; exact ih'.1
    · rw [poolConnN_succ_fst, h1]; exact ih'.2.1
    · rw [poolConnN_succ_fst, h1, ih'.2.2.1]; simp; omega
    · rw [poolConnN_succ_fst, h1]; exact ih'.2.2.2.1
    · rw [poolConnN_succ_fst, h1]; exact ih'.2.2.2.2.1
    · intro r hr
      rw [poolConnN_succ_snd, h1, h2] at hr
      rcases List.mem_cons.mp hr with h | h
      · exact ⟨p.nextConn, h⟩
      · exact ih'.2.2.2.2.2 r h

theorem poolReturnSeq_fifo (cs : List Nat) (p : PoolState)
    (hact : ∀ c ∈ cs, c ∈ p.active) (hlen : cs.length ≤ p.reqQueue.length) :
    ((poolReturnSeq p cs).2 = List.zipWith ReturnResult.granted p.reqQueue cs)
    ∧ ((poolReturnSeq p cs).1.reqQueue = p.reqQueue.drop cs.length)
    ∧ ((poolReturnSeq p cs).1.active = p.active)
    ∧ ((poolReturnSeq p cs).1.idle = p.idle) := by
  induction cs generalizing p with
  | nil => exact ⟨by simp [poolReturnSeq], rfl, rfl, rfl⟩
  | cons c cs ih =>
    match hq : p.reqQueue with
    | [] => rw [hq] at hlen; simp at hlen
    | r :: rest =>
      have hcin : c ∈ p.active := hact c (List.mem_cons_self c cs)
      have hstep : p.returnStep c = ({ p with reqQueue := rest }, .granted r c) := by
        simp [PoolState.returnStep, hcin, hq]
      have h1 : (p.returnStep c).1 = { p with reqQueue := rest } := by rw [hstep]
      have h2 : (p.returnStep c).2 = ReturnResult.granted r c := by rw [hstep]
      have hlen' : cs.length ≤ rest.length := by
        rw [hq] at hlen; simpa using hlen
      have ih' := ih { p with reqQueue := rest }
        (fun c' hc' => hact c' (List.mem_cons_of_mem c hc')) hlen'
      refine ⟨?_, ?_, ?_, ?_⟩
      · rw [poolReturnSeq_cons_snd, h1, h2, ih'.1]
        simp [List.zipWith]
      · rw [poolReturnSeq_cons_fst, h1, ih'.2.1]
        simp
      · rw [poolReturnSeq_cons_fst, h1, ih'.2.2.1]
      · rw [poolReturnSeq_cons_fst, h1, ih'.2.2.2]

/-! ## Claim theorem C2 -/

/-- C2: on a fresh pool with capacity `n`, the first `n` `conn` requests
all resolve immediately and fill the pool (`active` has length `n`, no
request is queued), the `n+1`-th request is queued rather than resolved;
a `return` while requests are queued hands the connection directly to
the head of the FIFO queue (the longest waiter) leaving `active` and
`idle` untouched (in particular the connection is not placed on the idle
list); and a sequence of returns grants released connections to the
queued requests strictly in FIFO order. -/
theorem memKvPool_capacity_fifo (n : Nat) (p : PoolState) (c r : Nat)
    (rest : List Nat) (cs : List Nat)
    (hact : ∀ cc ∈ cs, cc ∈ p.active) (hlen : cs.length ≤ p.reqQueue.length)
    (hc : c ∈ p.active) (hq : p.reqQueue = r :: rest) :
    (∀ res ∈ (poolConnN (PoolState.init n) n).2, ∃ cid, res = ConnResult.resolved cid)
    ∧ ((poolConnN (PoolState.init n) n).1.active.length = n)
    ∧ ((poolConnN (PoolState.init n) n).1.reqQueue = [])
    ∧ (((poolConnN (PoolState.init n) n).1.connStep).2 =
        ConnResult.queued (poolConnN (PoolState.init n) n).1.nextReq)
    ∧ (p.returnStep c = ({ p with reqQueue := rest }, ReturnResult.granted r c))
    ∧ ((poolReturnSeq p cs).2 = List.zipWith ReturnResult.granted p.reqQueue cs)
    ∧ ((poolReturnSeq p cs).1.active = p.active)
    ∧ ((poolReturnSeq p cs).1.idle = p.idle) := by
  have hfill := poolConnN_fill n (PoolState.init n) rfl rfl (by simp [PoolState.init])
  have hfifo := poolReturnSeq_fifo cs p hact hlen
  refine ⟨hfill.2.2.2.2.2, by rw [hfill.2.2.1]; simp [PoolState.init],
    by rw [hfill.2.2.2.2.1]; rfl, ?_, ?_, hfifo.1, hfifo.2.2.1, hfifo.2.2.2⟩
  · have hnlt : ¬ (poolConnN (PoolState.init n) n).1.active.length <
        (poolConnN (PoolState.init n) n).1.maxCnt := by
      rw [hfill.2.2.1, hfill.2.2.2.1]
      simp [PoolState.init]
    simp [PoolState.connStep, hfill.1, hfill.2.1, hnlt]
  · simp [PoolState.returnStep, hc, hq]

/-- Concrete pool used by the C2 witness: capacity 2, saturated, with
three queued requests. -/
def witPoolC2 : PoolState :=
  { maxCnt := 2, closed := false, reqQueue := [10, 11, 12], active := [5, 6],
    idle := [], nextConn := 7, nextReq := 13 }

/-- C2 witness at concrete inputs: capacity 2, a saturated pool with
three queued requests, two of which are then served in order. -/
theorem memKvPool_capacity_fifo_witness :
    (∀ cc ∈ [5, 6], cc ∈ witPoolC2.active)
    ∧ ([5, 6].length ≤ witPoolC2.reqQueue.length)
    ∧ (5 ∈ witPoolC2.active)
    ∧ (witPoolC2.reqQueue = 10 :: [11, 12])
    ∧ ((∀ res ∈ (poolConnN (PoolState.init 2) 2).2, ∃ cid, res = ConnResult.resolved cid)
      ∧ ((poolConnN (PoolState.init 2) 2).1.active.length = 2)
      ∧ ((poolConnN (PoolState.init 2) 2).1.reqQueue = [])
      ∧ (((poolConnN (PoolState.init 2) 2).1.connStep).2 =
          ConnResult.queued (poolConnN (PoolState.init 2) 2).1.nextReq)
      ∧ (witPoolC2.returnStep 5 =
          ({ witPoolC2 with reqQueue := [11, 12] }, ReturnResult.granted 10 5))
      ∧ ((poolReturnSeq witPoolC2 [5, 6]).2 =
          List.zipWith ReturnResult.granted witPoolC2.reqQueue [5, 6])
      ∧ ((poolReturnSeq witPoolC2 [5, 6]).1.active = witPoolC2.active)
      ∧ ((poolReturnSeq witPoolC2 [5, 6]).1.idle = witPoolC2.idle)) :=
  ⟨by decide, by decide, by decide, rfl,
    memKvPool_capacity_fifo 2 witPoolC2 5 10 [11, 12] [5, 6]
      (by decide) (by decide) (by decide) rfl⟩

/-! ## MemKvConn lifecycle

Embeds `MemKvConn.beginTxn`, `MemKvConn.close` and `MemKvConn.#txnDone`.
The connection's fields are those of `MemKvConnSt`; the owning pool's
bookkeeping is the `PoolState` above. -/

inductive CloseOutcome : Type
  | alreadyClosed
  | deferredBarrier
  | returnedNow
  deriving DecidableEq, Repr

/-- Embeds `MemKvConn.close`: if already closed, resolve at once; set
the closed flag; if `#txn` is non-null, install (or reuse) the
`#waitClose` barrier and defer the pool return behind it; otherwise call
`this.#pool.return(this)` and resolve immediately. -/
def MemKvConnSt.close (c : MemKvConnSt) (p : PoolState) :
    MemKvConnSt × PoolState × CloseOutcome :=
  if c.closed then (c, p, .alreadyClosed)
  else
    match c.txn with
    | some _ => ({ c with closed := true, hasWaitClose := true }, p, .deferredBarrier)
    | none => ({ c with closed := true }, (p.returnStep c.id).1, .returnedNow)

/-- Embeds `MemKvConn.beginTxn`: throws if closed, otherwise constructs
a fresh `MemKvTxn` from the shared store and options and returns it.
The method modifies no field of the connection: in particular the
`#txn` field is left as it was (the source never assigns `this.#txn`),
and nothing is read from `ctx`. -/
def MemKvConnSt.beginTxn (V : Type) (c : MemKvConnSt) (ro : Bool) :
    Except KvErr (MemKvTxn V × MemKvConnSt) :=
  if c.closed then .error .connClosed else .ok (MemKvTxn.init V ro, c)

inductive TxnDoneOutcome : Type
  | resolvedBarrier
  | selfClosed
  | kept
  deriving DecidableEq, Repr

/-- Embeds `MemKvConn.#txnDone`: clear `#txn`; if a `#waitClose` barrier
is pending, clear it, return the connection to the pool and resolve the
barrier; else if the connection is not `keepOpen`, call `close()`;
otherwise do nothing. -/
def MemKvConnSt.txnDone (c : MemKvConnSt) (p : PoolState) :
    MemKvConnSt × PoolState × TxnDoneOutcome :=
  let c0 := { c with txn := none }
  if c0.hasWaitClose then
    ({ c0 with hasWaitClose := false }, (p.returnStep c.id).1, .resolvedBarrier)
  else if c0.keepOpen then (c0, p, .kept)
  else
    let r := c0.close p
    (r.1, r.2.1, .selfClosed)

/-! ## Claim C3: close during an open transaction -/

/-- C3: evaluation of the code at the failing input.  A connection is
acquired from a capacity-1 pool (id 0, active, `keepOpen = true`) and a
transaction is begun on it.  `beginTxn` returns the connection with its
`#txn` field still `null` — the source constructs the `MemKvTxn` but
never assigns `this.#txn` — so a `close()` issued while the just-begun
transaction is still open (its done flag is false) takes the
no-transaction branch: it installs no close-barrier, calls
`pool.return(this)` at once, and the connection lands on the idle list
immediately, with outcome `returnedNow` rather than `deferredBarrier`.
This contradicts the claim that the pool return is deferred until the
transaction finalizes. -/
theorem memKvConn_close_during_txn_bug :
    (MemKvConnSt.beginTxn Nat ⟨0, false, true, false, none⟩ false =
      .ok (MemKvTxn.init Nat false, ⟨0, false, true, false, none⟩))
    ∧ ((MemKvTxn.init Nat false).done = false)
    ∧ ((⟨0, false, true, false, none⟩ : MemKvConnSt).txn = none)
    ∧ (MemKvConnSt.close ⟨0, false, true, false, none⟩
        { maxCnt := 1, closed := false, reqQueue := [], active := [0],
          idle := [], nextConn := 1, nextReq := 0 } =
        (⟨0, true, true, false, none⟩,
          { maxCnt := 1, closed := false, reqQueue := [], active := [],
            idle := [0], nextConn := 1, nextReq := 0 },
          CloseOutcome.returnedNow)) := by
  refine ⟨rfl, rfl, rfl, ?_⟩
  decide

/-! ## The transaction coordinator `runTransaction`

Embeds `runTransaction`, `withStorageApi` and `getStorageApi` from
`storage-api/src/context.ts`.  A storage-api object is represented by
its identity (`id`) and its `mode`; a context by its identity and the
innermost binding for the storage-api key.  The callback `fn`, the
transaction's `commit` and its `rollback` are asynchronous caller- or
store-supplied code, so their outcomes are oracle parameters: `none`
models a promise that resolves, `some e` one that rejects with `e`. -/

inductive SMode : Type
  | pool
  | conn
  | txn
  deriving DecidableEq, Repr

structure ApiRef : Type where
  id : Nat
  mode : SMode
  deriving DecidableEq, Repr

structure Ctx : Type where
  id : Nat
  api : Option ApiRef
  deriving DecidableEq, Repr

/-- Embeds `withStorageApi`: `withValue` allocates a derived context
(fresh identity) whose storage-api binding is the given api. -/
def withStorageApiM (ctx : Ctx) (api : ApiRef) (freshId : Nat) : Ctx :=
  { id := freshId, api := some api }

/-- Embeds `getStorageApi`: reads the innermost storage-api binding. -/
def getStorageApiM (ctx : Ctx) : Option ApiRef :=
  ctx.api

inductive CoordError (E : Type) : Type
  | noStorageApi
  | missingCallback
  | user (e : E)
  deriving DecidableEq, Repr

structure CoordOutcome (E : Type) : Type where
  callCtx : Option Nat
  callTxn : Option Nat
  began : Bool
  commitCalled : Bool
  rollbackCalled : Bool
  result : Except (CoordError E) Unit
  deriving Repr

/-- Embeds `runTransaction` (context.ts lines 40-82): throw
`noStorageApi` if the context has no storage-api binding; throw
`missingCallback` if no callback was supplied; if the bound api is
already in txn mode, invoke the callback with the unchanged context and
that same api and return its outcome directly, performing no begin,
commit or rollback; otherwise begin a transaction (fresh identity
`freshTxnId`), derive a child context binding it, run the callback with
the child context, then `commit` on success, or on failure `rollback`
and rethrow the callback's error — unless `rollback` itself rejects, in
which case the rollback's error escapes the catch block instead.  A
`commit` rejection is caught by the same catch block, triggering a
rollback as well.  `callCtx`/`callTxn` record the identities of the
context and transaction the callback was invoked with, and the three
flags record which lifecycle steps ran. -/
def runTransactionM {E : Type} (ctx : Ctx) (hasCb : Bool)
    (freshTxnId freshCtxId : Nat) (fnRes commitRes rollbackRes : Option E) :
    CoordOutcome E :=
  match getStorageApiM ctx with
  | none =>
    { callCtx := none, callTxn := none, began := false, commitCalled := false,
      rollbackCalled := false, result := .error .noStorageApi }
  | some api =>
    if !hasCb then
      { callCtx := none, callTxn := none, began := false, commitCalled := false,
        rollbackCalled := false, result := .error .missingCallback }
    else if api.mode = .txn then
      { callCtx := some ctx.id, callTxn := some api.id, began := false,
        commitCalled := false, rollbackCalled := false,
        result := match fnRes with
          | none => .ok ()
          | some e => .error (.user e) }
    else
      let childCtx := withStorageApiM ctx { id := freshTxnId, mode := .txn } freshCtxId
      match fnRes with
      | none =>
        match commitRes with
        | none =>
          { callCtx := some childCtx.id, callTxn := some freshTxnId, began := true,
            commitCalled := true, rollbackCalled := false, result := .ok () }
        | some ce =>
          match rollbackRes with
          | none =>
            { callCtx := some childCtx.id, callTxn := some freshTxnId, began := true,
              commitCalled := true, rollbackCalled := true,
              result := .error (.user ce) }
          | some re =>
            { callCtx := some childCtx.id, callTxn := some freshTxnId, began := true,
              commitCalled := true, rollbackCalled := true,
              result := .error (.user re) }
      | some fe =>
        match rollbackRes with
        | none =>
          { callCtx := some childCtx.id, callTxn := some freshTxnId, began := true,
            commitCalled := false, rollbackCalled := true,
            result := .error (.user fe) }
        | some re =>
          { callCtx := some childCtx.id, callTxn := some freshTxnId, began := true,
            commitCalled := false, rollbackCalled := true,
            result := .error (.user re) }

/-! ## Claim theorems about the coordinator -/

/-- C5: for a `runTransaction` call that begins a new transaction (a
storage-api is bound, a callback is supplied, and the bound api is not
already in txn mode): if the callback resolves, `commit` is called; if
the callback rejects with error `e`, `rollback` is called and — when
`rollback` resolves — `e` is propagated unchanged to the caller, while
if `rollback` itself rejects, the rollback's error is the one the
caller observes instead of `e`. -/
theorem runTransaction_error_propagation {E : Type} (ctx : Ctx) (api : ApiRef)
    (freshTxnId freshCtxId : Nat) (fnRes commitRes rollbackRes : Option E)
    (hapi : getStorageApiM ctx = some api) (hmode : api.mode ≠ .txn) :
    ((fnRes = none →
        (runTransactionM ctx true freshTxnId freshCtxId fnRes commitRes
          rollbackRes).commitCalled = true)
    ∧ (∀ fe, fnRes = some fe →
        (runTransactionM ctx true freshTxnId freshCtxId fnRes commitRes
          rollbackRes).rollbackCalled = true
        ∧ (rollbackRes = none →
            (runTransactionM ctx true freshTxnId freshCtxId fnRes commitRes
              rollbackRes).result = .error (.user fe))
        ∧ (∀ re, rollbackRes = some re →
            (runTransactionM ctx true freshTxnId freshCtxId fnRes commitRes
              rollbackRes).result = .error (.user re)))) := by
  constructor
  · intro hfn
    subst hfn
    cases commitRes <;>
      cases rollbackRes <;>
        simp [runTransactionM, hapi, hmode]
  · intro fe hfn
    subst hfn
    refine ⟨by cases rollbackRes <;> simp [runTransactionM, hapi, hmode], ?_, ?_⟩
    · intro hrb
      subst hrb
      simp [runTransactionM, hapi, hmode]
    · intro re hrb
      subst hrb
      simp [runTransactionM, hapi, hmode]

/-- C5 witness at concrete inputs: a conn-mode api; callback failure 3
with successful rollback propagates 3; with rollback failure 4 the
caller observes 4. -/
theorem runTransaction_error_propagation_witness :
    (getStorageApiM { id := 0, api := some { id := 1, mode := SMode.conn } } =
      some { id := 1, mode := SMode.conn })
    ∧ (({ id := 1, mode := SMode.conn } : ApiRef).mode ≠ SMode.txn)
    ∧ (((none : Option Nat) = none →
        (runTransactionM { id := 0, api := some { id := 1, mode := SMode.conn } }
          true 2 3 (none : Option Nat) none none).commitCalled = true)
      ∧ (∀ fe, (none : Option Nat) = some fe →
          (runTransactionM { id := 0, api := some { id := 1, mode := SMode.conn } }
            true 2 3 (none : Option Nat) none none).rollbackCalled = true
          ∧ ((none : Option Nat) = none →
              (runTransactionM { id := 0, api := some { id := 1, mode := SMode.conn } }
                true 2 3 (none : Option Nat) none none).result = .error (.user fe))
          ∧ (∀ re, (none : Option Nat) = some re →
              (runTransactionM { id := 0, api := some { id := 1, mode := SMode.conn } }
                true 2 3 (none : Option Nat) none none).result = .error (.user re)))) :=
  ⟨rfl, by decide,
    runTransaction_error_propagation { id := 0, api := some { id := 1, mode := SMode.conn } }
      { id := 1, mode := SMode.conn } 2 3 none none none rfl (by decide)⟩

/-- C6: when the storage-api bound on the context is already in txn
mode, `runTransaction` invokes the callback with exactly the same
context object and the same transaction object (identities unchanged),
creates no new transaction, and calls neither commit nor rollback; the
callback's own outcome is returned directly. -/
theorem runTransaction_reuses_open_txn {E : Type} (ctx : Ctx) (api : ApiRef)
    (freshTxnId freshCtxId : Nat) (fnRes commitRes rollbackRes : Option E)
    (hapi : getStorageApiM ctx = some api) (hmode : api.mode = .txn) :
    (runTransactionM ctx true freshTxnId freshCtxId fnRes commitRes rollbackRes).callCtx
        = some ctx.id
    ∧ (runTransactionM ctx true freshTxnId freshCtxId fnRes commitRes
        rollbackRes).callTxn = some api.id
    ∧ (runTransactionM ctx true freshTxnId freshCtxId fnRes commitRes
        rollbackRes).began = false
    ∧ (runTransactionM ctx true freshTxnId freshCtxId fnRes commitRes
        rollbackRes).commitCalled = false
    ∧ (runTransactionM ctx true freshTxnId freshCtxId fnRes commitRes
        rollbackRes).rollbackCalled = false
    ∧ (runTransactionM ctx true freshTxnId freshCtxId fnRes commitRes
        rollbackRes).result = (match fnRes with
          | none => .ok ()
          | some e => .error (.user e)) := by
  refine ⟨?_, ?_, ?_, ?_, ?_, ?_⟩ <;>
    simp [runTransactionM, hapi, hmode]

/-- C6 witness at concrete inputs: a txn-mode api bound on context 7. -/
theorem runTransaction_reuses_open_txn_witness :
    (getStorageApiM { id := 7, api := some { id := 9, mode := SMode.txn } } =
      some { id := 9, mode := SMode.txn })
    ∧ (({ id := 9, mode := SMode.txn } : ApiRef).mode = SMode.txn)
    ∧ ((runTransactionM { id := 7, api := some { id := 9, mode := SMode.txn } }
        true 2 3 (some 5) (none : Option Nat) none).callCtx = some 7
      ∧ (runTransactionM { id := 7, api := some { id := 9, mode := SMode.txn } }
          true 2 3 (some 5) (none : Option Nat) none).callTxn = some 9
      ∧ (runTransactionM { id := 7, api := some { id := 9, mode := SMode.txn } }
          true 2 3 (some 5) (none : Option Nat) none).began = false
      ∧ (runTransactionM { id := 7, api := some { id := 9, mode := SMode.txn } }
          true 2 3 (some 5) (none : Option Nat) none).commitCalled = false
      ∧ (runTransactionM { id := 7, api := some { id := 9, mode := SMode.txn } }
          true 2 3 (some 5) (none : Option Nat) none).rollbackCalled = false
      ∧ (runTransactionM { id := 7, api := some { id := 9, mode := SMode.txn } }
          true 2 3 (some 5) (none : Option Nat) none).result =
          (match (some 5 : Option Nat) with
            | none => .ok ()
            | some e => .error (.user e))) :=
  ⟨rfl, rfl,
    runTransaction_reuses_open_txn { id := 7, api := some { id := 9, mode := SMode.txn } }
      { id := 9, mode := SMode.txn } 2 3 (some 5) none none rfl rfl⟩

/-! ## Cancelable connection requests

Embeds `cancelableConnRequest` together with the pool's queue handling,
so that the fate of a queued request whose context is canceled can be
followed end to end.  Request handles are keyed by their request id in a
`NMap`; `outs` records what the requester's promise observed. -/

abbrev NMap (A : Type) : Type := List (Nat × A)

def NMap.get {A : Type} (l : NMap A) (k : Nat) : Option A :=
  match l with
  | [] => none
  | (k', v) :: rest => if k' = k then some v else NMap.get rest k

def NMap.set {A : Type} (l : NMap A) (k : Nat) (v : A) : NMap A :=
  match l with
  | [] => [(k, v)]
  | (k', v') :: rest =>
    if k' = k then (k, v) :: rest else (k', v') :: NMap.set rest k v

theorem NMap.get_set_same {A : Type} (l : NMap A) (k : Nat) (v : A) :
    (l.set k v).get k = some v := by
  induction l with
  | nil => simp [NMap.set, NMap.get]
  | cons hd tl ih =>
    obtain ⟨k', v'⟩ := hd
    by_cases h : k' = k <;> simp [NMap.set, NMap.get, h, ih]

theorem NMap.get_set_other {A : Type} (l : NMap A) (k' k : Nat) (v : A)
    (h : k' ≠ k) : (l.set k' v).get k = l.get k := by
  induction l with
  | nil => simp [NMap.set, NMap.get, h]
  | cons hd tl ih =>
    obtain ⟨k0, v0⟩ := hd
    by_cases h0 : k0 = k'
    · subst h0
      simp [NMap.set, NMap.get, h]
    · simp [NMap.set, NMap.get, h0, ih]

/-- The local state of one `cancelableConnRequest` closure: the
`timedOut` and `resolved` flags, and whether `handle.onCancel` is still
subscribed to the canceler. -/
structure ReqSt : Type where
  timedOut : Bool
  resolvedFlag : Bool
  listenerOn : Bool
  deriving DecidableEq, Repr

/-- What the requester's promise has observed so far. -/
inductive ReqOut : Type
  | pending
  | canceledErr
  | got (connId : Nat)
  deriving DecidableEq, Repr

structure CancelSys : Type where
  pool : PoolState
  reqs : NMap ReqSt
  outs : NMap ReqOut
  deriving DecidableEq, Repr

/-- Embeds the queueing branch of `MemKvPool.conn` when `ctx.canceler`
is non-null: the pool step runs as usual and, when it queues a request,
a `cancelableConnRequest` handle is created for it with its `onCancel`
listener subscribed (`timedOut = false`, `resolved = false`), its
promise still pending. -/
def CancelSys.enqueueCancelable (s : CancelSys) : CancelSys × ConnResult :=
  match h : s.pool.connStep with
  | (p1, ConnResult.queued r) =>
    ({ pool := p1, reqs := s.reqs.set r ⟨false, false, true⟩,
       outs := s.outs.set r .pending }, ConnResult.queued r)
  | (p1, other) => ({ s with pool := p1 }, other)

/-- Embeds `handle.onCancel` in `cancelableConnRequest`: unsubscribe
the listener from the canceler; if the request was already resolved do
nothing else; otherwise set `timedOut` and reject the waiting promise
with the context-canceled error.  Note that the pool state — in
particular `#reqQueue` — is not touched: the handle stays in the
queue. -/
def CancelSys.cancelFire (s : CancelSys) (r : Nat) : CancelSys :=
  match s.reqs.get r with
  | none => s
  | some h =>
    if h.resolvedFlag then
      { s with reqs := s.reqs.set r { h with listenerOn := false } }
    else
      { s with
          reqs := s.reqs.set r { h with timedOut := true, listenerOn := false },
          outs := s.outs.set r .canceledErr }

/-- Embeds `MemKvPool.return(con)` together with the external-resolve
closure of `cancelableConnRequest`.  `return` shifts the head waiter off
the FIFO queue and calls `req.resolve(con)`: a handle whose context
already canceled (`timedOut`) closes the connection instead of
delivering it, and `MemKvConn.close` on a transaction-free connection
calls `pool.return` again, recursing to the next waiter; a live handle
marks itself resolved, unsubscribes its listener and delivers the
connection to the requester.  With no waiters the connection is spliced
out of `#active` and pushed onto the idle list.  A plain
(non-cancelable) handle — absent from `reqs` — always just receives the
connection.  `fuel` bounds the recursion; the queue shrinks by one each
round, so `reqQueue.length + 1` suffices.  (The `con.reset(true)` /
closed-flag churn on the connection object itself is internal to the
connection and not tracked here.) -/
def CancelSys.deliver (s : CancelSys) (c : Nat) : Nat → CancelSys
  | 0 => s
  | fuel + 1 =>
    if c ∈ s.pool.active then
      match s.pool.reqQueue with
      | [] =>
        { s with pool := { s.pool with
            active := s.pool.active.erase c, idle := s.pool.idle ++ [c] } }
      | r :: rest =>
        let s1 : CancelSys := { s with pool := { s.pool with reqQueue := rest } }
        match s1.reqs.get r with
        | some h =>
          if h.timedOut then CancelSys.deliver s1 c fuel
          else
            { s1 with
                reqs := s1.reqs.set r { h with resolvedFlag := true, listenerOn := false },
                outs := s1.outs.set r (.got c) }
        | none => { s1 with outs := s1.outs.set r (.got c) }
    else s

/-! ## Equation lemmas for `deliver` -/

theorem deliver_not_active (s : CancelSys) (c : Nat) (fuel : Nat)
    (h : c ∉ s.pool.active) : s.deliver c (fuel + 1) = s := by
  simp [CancelSys.deliver, h]

theorem deliver_empty_queue (s : CancelSys) (c : Nat) (fuel : Nat)
    (hc : c ∈ s.pool.active) (hq : s.pool.reqQueue = []) :
    s.deliver c (fuel + 1) =
      { s with pool := { s.pool with
          active := s.pool.active.erase c, idle := s.pool.idle ++ [c] } } := by
  simp [CancelSys.deliver, hc, hq]

theorem deliver_succ_skip (s : CancelSys) (c r : Nat) (rest : List Nat)
    (h : ReqSt) (fuel : Nat) (hc : c ∈ s.pool.active)
    (hq : s.pool.reqQueue = r :: rest) (hh : s.reqs.get r = some h)
    (ht : h.timedOut = true) :
    s.deliver c (fuel + 1) =
      CancelSys.deliver { s with pool := { s.pool with reqQueue := rest } } c fuel := by
  simp [CancelSys.deliver, hc, hq, hh, ht]

theorem deliver_succ_grant (s : CancelSys) (c r : Nat) (rest : List Nat)
    (h : ReqSt) (fuel : Nat) (hc : c ∈ s.pool.active)
    (hq : s.pool.reqQueue = r :: rest) (hh : s.reqs.get r = some h)
    (ht : h.timedOut = false) :
    s.deliver c (fuel + 1) =
      { pool := { s.pool with reqQueue := rest },
        reqs := s.reqs.set r { h with resolvedFlag := true, listenerOn := false },
        outs := s.outs.set r (.got c) } := by
  simp [CancelSys.deliver, hc, hq, hh, ht]

theorem deliver_succ_plain (s : CancelSys) (c r : Nat) (rest : List Nat)
    (fuel : Nat) (hc : c ∈ s.pool.active) (hq : s.pool.reqQueue = r :: rest)
    (hh : s.reqs.get r = none) :
    s.deliver c (fuel + 1) =
      { pool := { s.pool with reqQueue := rest },
        reqs := s.reqs, outs := s.outs.set r (.got c) } := by
  simp [CancelSys.deliver, hc, hq, hh]

/-! ## Lemmas about cancellation -/

theorem cancelFire_pool_unchanged (s : CancelSys) (r : Nat) :
    (s.cancelFire r).pool = s.pool := by
  unfold CancelSys.cancelFire
  cases s.reqs.get r with
  | none => rfl
  | some h =>
    by_cases hr : h.resolvedFlag = true <;> simp [hr]

theorem cancelFire_rejects (s : CancelSys) (r : Nat) (h : ReqSt)
    (hh : s.reqs.get r = some h) (hres : h.resolvedFlag = false) :
    (s.cancelFire r).outs.get r = some .canceledErr
    ∧ (s.cancelFire r).reqs.get r =
        some { h with timedOut := true, listenerOn := false } := by
  unfold CancelSys.cancelFire
  rw [hh]
  simp [hres, NMap.get_set_same]

theorem deliver_no_timedOut_delivery (fuel : Nat) (s : CancelSys) (c r : Nat)
    (h : ReqSt) (hh : s.reqs.get r = some h) (ht : h.timedOut = true) :
    ((s.deliver c fuel).outs.get r = s.outs.get r)
    ∧ ((s.deliver c fuel).reqs.get r = s.reqs.get r) := by
  induction fuel generalizing s with
  | zero => exact ⟨rfl, rfl⟩
  | succ fuel ih =>
    by_cases hc : c ∈ s.pool.active
    · match hq : s.pool.reqQueue with
      | [] =>
        rw [deliver_empty_queue s c fuel hc hq]
        exact ⟨rfl, rfl⟩
      | r' :: rest =>
        by_cases hrr : r' = r
        · subst hrr
          rw [deliver_succ_skip s c r' rest h fuel hc hq hh ht]
          exact ih { s with pool := { s.pool with reqQueue := rest } } hh
        · match hh' : s.reqs.get r' with
          | none =>
            rw [deliver_succ_plain s c r' rest fuel hc hq hh']
            exact ⟨NMap.get_set_other s.outs r' r _ hrr, rfl⟩
          | some h' =>
            by_cases ht' : h'.timedOut = true
            · rw [deliver_succ_skip s c r' rest h' fuel hc hq hh' ht']
              exact ih { s with pool := { s.pool with reqQueue := rest } } hh
            · have ht'' : h'.timedOut = false := by
                revert ht'; cases h'.timedOut <;> simp
              rw [deliver_succ_grant s c r' rest h' fuel hc hq hh' ht'']
              exact ⟨NMap.get_set_other s.outs r' r _ hrr,
                NMap.get_set_other s.reqs r' r _ hrr⟩
    · rw [deliver_not_active s c fuel hc]
      exact ⟨rfl, rfl⟩

theorem deliver_no_leak (fuel : Nat) (s : CancelSys) (c : Nat)
    (hc : c ∈ s.pool.active) (hfuel : s.pool.reqQueue.length < fuel) :
    (c ∈ (s.deliver c fuel).pool.idle)
    ∨ (∃ r', (s.deliver c fuel).outs.get r' = some (.got c)) := by
  induction fuel generalizing s with
  | zero => omega
  | succ fuel ih =>
    match hq : s.pool.reqQueue with
    | [] =>
      rw [deliver_empty_queue s c fuel hc hq]
      left
      simp
    | r :: rest =>
      match hh : s.reqs.get r with
      | some h =>
        by_cases ht : h.timedOut = true
        · rw [deliver_succ_skip s c r rest h fuel hc hq hh ht]
          refine ih { s with pool := { s.pool with reqQueue := rest } } hc ?_
          rw [hq] at hfuel
          simpa using Nat.lt_of_succ_lt_succ hfuel
        · have ht' : h.timedOut = false := by
            revert ht; cases h.timedOut <;> simp
          rw [deliver_succ_grant s c r rest h fuel hc hq hh ht']
          right
          exact ⟨r, NMap.get_set_same s.outs r (.got c)⟩
      | none =>
        rw [deliver_succ_plain s c r rest fuel hc hq hh]
        right
        exact ⟨r, NMap.get_set_same s.outs r (.got c)⟩

/-! ## Claim C4 -/

/-- C4: counterexample to the claim as stated.  A capacity-1 pool with
its one connection active queues a cancelable `conn()` request (id 0).
When the cancellation signal fires, the request's promise rejects with
the context-canceled error — but the handle is NOT removed from the
pool's waiter queue: `handle.onCancel` only unsubscribes itself and
rejects, touching no pool state, so `#reqQueue` still contains the
canceled request afterwards. -/
theorem cancelableConnRequest_stays_queued_counterexample :
    (CancelSys.enqueueCancelable ⟨⟨1, false, [], [0], [], 1, 0⟩, [], []⟩ =
      (⟨⟨1, false, [0], [0], [], 1, 1⟩, [(0, ⟨false, false, true⟩)],
        [(0, ReqOut.pending)]⟩, ConnResult.queued 0))
    ∧ ((CancelSys.cancelFire ⟨⟨1, false, [0], [0], [], 1, 1⟩,
          [(0, ⟨false, false, true⟩)], [(0, ReqOut.pending)]⟩ 0).outs.get 0 =
        some ReqOut.canceledErr)
    ∧ ((CancelSys.cancelFire ⟨⟨1, false, [0], [0], [], 1, 1⟩,
          [(0, ⟨false, false, true⟩)], [(0, ReqOut.pending)]⟩ 0).pool.reqQueue =
        [0]) := by
  decide

/-- C4 (amended): if a queued cancelable request's context is canceled
before a connection becomes available, the request's promise rejects
with the cancellation error and its handle is marked timed out, while
the pool state — including the waiter queue the handle sits in — is left
untouched; no connection is ever delivered to the canceled requester
(any later sequence of releases leaves its observed outcome and its
handle unchanged); and a released connection is not leaked: offered
through the queue, it is either handed to a live waiter or ends up on
the idle list. -/
theorem cancelableConnRequest_cancel_safe (s s2 : CancelSys) (r r2 c : Nat)
    (h2 : ReqSt) (fuel : Nat)
    (hh : s.reqs.get r = some ⟨false, false, true⟩)
    (hh2 : s2.reqs.get r2 = some h2) (ht2 : h2.timedOut = true)
    (hc : c ∈ s2.pool.active) (hfuel : s2.pool.reqQueue.length < fuel) :
    ((s.cancelFire r).outs.get r = some .canceledErr)
    ∧ ((s.cancelFire r).pool = s.pool)
    ∧ ((s2.deliver c fuel).outs.get r2 = s2.outs.get r2)
    ∧ ((s2.deliver c fuel).reqs.get r2 = s2.reqs.get r2)
    ∧ ((c ∈ (s2.deliver c fuel).pool.idle)
        ∨ (∃ r', (s2.deliver c fuel).outs.get r' = some (.got c))) :=
  ⟨(cancelFire_rejects s r ⟨false, false, true⟩ hh rfl).1,
    cancelFire_pool_unchanged s r,
    (deliver_no_timedOut_delivery fuel s2 c r2 h2 hh2 ht2).1,
    (deliver_no_timedOut_delivery fuel s2 c r2 h2 hh2 ht2).2,
    deliver_no_leak fuel s2 c hc hfuel⟩

/-- C4 witness at concrete inputs: the canceled request 0 of a
capacity-1 pool, and the release of connection 0 afterwards. -/
theorem cancelableConnRequest_cancel_safe_witness :
    ((⟨⟨1, false, [0], [0], [], 1, 1⟩, [(0, ⟨false, false, true⟩)],
        [(0, ReqOut.pending)]⟩ : CancelSys).reqs.get 0 =
      some ⟨false, false, true⟩)
    ∧ ((⟨⟨1, false, [0], [0], [], 1, 1⟩, [(0, ⟨true, false, false⟩)],
        [(0, ReqOut.canceledErr)]⟩ : CancelSys).reqs.get 0 =
      some ⟨true, false, false⟩)
    ∧ ((⟨true, false, false⟩ : ReqSt).timedOut = true)
    ∧ (0 ∈ (⟨⟨1, false, [0], [0], [], 1, 1⟩, [(0, ⟨true, false, false⟩)],
        [(0, ReqOut.canceledErr)]⟩ : CancelSys).pool.active)
    ∧ ((⟨⟨1, false, [0], [0], [], 1, 1⟩, [(0, ⟨true, false, false⟩)],
        [(0, ReqOut.canceledErr)]⟩ : CancelSys).pool.reqQueue.length < 2)
    ∧ (((CancelSys.cancelFire ⟨⟨1, false, [0], [0], [], 1, 1⟩,
          [(0, ⟨false, false, true⟩)], [(0, ReqOut.pending)]⟩ 0).outs.get 0 =
          some .canceledErr)
      ∧ ((CancelSys.cancelFire ⟨⟨1, false, [0], [0], [], 1, 1⟩,
          [(0, ⟨false, false, true⟩)], [(0, ReqOut.pending)]⟩ 0).pool =
          (⟨⟨1, false, [0], [0], [], 1, 1⟩, [(0, ⟨false, false, true⟩)],
            [(0, ReqOut.pending)]⟩ : CancelSys).pool)
      ∧ ((CancelSys.deliver ⟨⟨1, false, [0], [0], [], 1, 1⟩,
          [(0, ⟨true, false, false⟩)], [(0, ReqOut.canceledErr)]⟩ 0 2).outs.get 0 =
          (⟨⟨1, false, [0], [0], [], 1, 1⟩, [(0, ⟨true, false, false⟩)],
            [(0, ReqOut.canceledErr)]⟩ : CancelSys).outs.get 0)
      ∧ ((CancelSys.deliver ⟨⟨1, false, [0], [0], [], 1, 1⟩,
          [(0, ⟨true, false, false⟩)], [(0, ReqOut.canceledErr)]⟩ 0 2).reqs.get 0 =
          (⟨⟨1, false, [0], [0], [], 1, 1⟩, [(0, ⟨true, false, false⟩)],
            [(0, ReqOut.canceledErr)]⟩ : CancelSys).reqs.get 0)
      ∧ ((0 ∈ (CancelSys.deliver ⟨⟨1, false, [0], [0], [], 1, 1⟩,
            [(0, ⟨true, false, false⟩)], [(0, ReqOut.canceledErr)]⟩ 0 2).pool.idle)
        ∨ (∃ r', (CancelSys.deliver ⟨⟨1, false, [0], [0], [], 1, 1⟩,
            [(0, ⟨true, false, false⟩)], [(0, ReqOut.canceledErr)]⟩ 0 2).outs.get r' =
            some (.got 0)))) :=
  ⟨rfl, rfl, rfl, by decide, by decide,
    cancelableConnRequest_cancel_safe
      ⟨⟨1, false, [0], [0], [], 1, 1⟩, [(0, ⟨false, false, true⟩)],
        [(0, ReqOut.pending)]⟩
      ⟨⟨1, false, [0], [0], [], 1, 1⟩, [(0, ⟨true, false, false⟩)],
        [(0, ReqOut.canceledErr)]⟩
      0 0 0 ⟨true, false, false⟩ 2 rfl rfl rfl (by decide) (by decide)⟩

/-! ## Pool close

Embeds `MemKvPool.close` together with `MemKvConn.close` on each active
connection, including the source's `for (const c of this.#active)` loop,
which iterates by index over the live `#active` array while each
`c.close()` may splice that very array through `pool.return`. -/

structure CloseSys : Type where
  pool : PoolState
  conns : NMap MemKvConnSt
  deriving DecidableEq, Repr

/-- Run `c.close()` for the connection with the given id: look the
object up and apply `MemKvConn.close`, recording the updated connection
and pool. -/
def CloseSys.closeConn (s : CloseSys) (cid : Nat) : CloseSys :=
  match s.conns.get cid with
  | none => s
  | some c =>
    let r := c.close s.pool
    { pool := r.2.1, conns := s.conns.set cid r.1 }

/-- The `for (const c of this.#active)` loop of `MemKvPool.close`: the
array iterator keeps a numeric index into the live `#active` array; each
iteration reads `active[i]`, invokes that connection's `close()` (which
may splice `#active` via `pool.return`), and advances the index; the
loop ends when the index reaches the current length.  Returns the final
system and the ids whose `close()` was invoked (the promises pushed and
later awaited).  `fuel` bounds the iteration count; `#active` never
grows during the loop, so its initial length suffices. -/
def closeLoop (s : CloseSys) (i : Nat) : Nat → CloseSys × List Nat
  | 0 => (s, [])
  | fuel + 1 =>
    if h : i < s.pool.active.length then
      let cid := s.pool.active.get ⟨i, h⟩
      let s1 := s.closeConn cid
      let r2 := closeLoop s1 (i + 1) fuel
      (r2.1, cid :: r2.2)
    else (s, [])

/-- Embeds `MemKvPool.close`: if already closed, resolve immediately;
else set the closed flag, clear the idle array
(`this.#pool.splice(0, this.#pool.length)`), then run the for-of loop
over `#active`, collecting each invoked `close()`. -/
def CloseSys.poolClose (s : CloseSys) : CloseSys × List Nat :=
  if s.pool.closed then (s, [])
  else
    let s1 : CloseSys := { s with pool := { s.pool with closed := true, idle := [] } }
    closeLoop s1 0 s1.pool.active.length

/-! ## Claim C8 -/

/-- C8: evaluation of the code at the failing input.  A pool with two
active, transaction-free connections (ids 0 and 1) is closed.  The
for-of loop first closes connection 0, whose `pool.return` splices it
out of `#active`, shifting connection 1 to index 0; the iterator then
advances to index 1, which is past the shrunk array, and the loop ends.
So only connection 0 is asked to close: connection 1 is never closed
(its closed flag stays false and it remains in `#active`), and no close
result for it is awaited — contradicting the claim that every
connection active at that moment is asked to close and all of their
close results are awaited.  (The pool-closed flag is set and the idle
list is dropped, as claimed.) -/
theorem memKvPool_close_skips_active_bug :
    ((⟨⟨2, false, [], [0, 1], [], 2, 0⟩,
        [(0, ⟨0, false, true, false, none⟩), (1, ⟨1, false, true, false, none⟩)]⟩ :
      CloseSys).pool.active = [0, 1])
    ∧ (CloseSys.poolClose ⟨⟨2, false, [], [0, 1], [], 2, 0⟩,
        [(0, ⟨0, false, true, false, none⟩), (1, ⟨1, false, true, false, none⟩)]⟩ =
      (⟨⟨2, true, [], [1], [0], 2, 0⟩,
        [(0, ⟨0, true, true, false, none⟩), (1, ⟨1, false, true, false, none⟩)]⟩,
        [0]))
    ∧ ([0] ≠ [0, 1]) := by
  refine ⟨rfl, ?_, by decide⟩
  decide

/-! ## The stack store's transaction and cancellation

Embeds the `Canceler` capability (`onCancel` subscribes a listener,
`off` unsubscribes it) and the `MemStackTxn` class of the stack-store
fixture, whose constructor subscribes a rollback-on-cancel listener.
Listeners are identified by numeric ids; a transaction's bound
`#onCancel` closure has id `lid`.  The shared stack is passed
explicitly.  (`#complete` also notifies the owning connection via
`_txnDone`; the connection side is not needed here.) -/

structure Canceler : Type where
  listeners : List Nat
  deriving DecidableEq, Repr

/-- Embeds `clr.onCancel(listener)`: subscribe. -/
def Canceler.subscribe (c : Canceler) (i : Nat) : Canceler :=
  ⟨c.listeners ++ [i]⟩

/-- Embeds `clr.off(listener)`: unsubscribe. -/
def Canceler.off (c : Canceler) (i : Nat) : Canceler :=
  ⟨c.listeners.erase i⟩

inductive StackOp (V : Type) : Type
  | push (v : V)
  | pop
  deriving DecidableEq, Repr

structure MemStackTxn (V : Type) : Type where
  lid : Nat
  snap : List V
  ops : List (StackOp V)
  rdonly : Bool
  done : Bool
  hasOnCancel : Bool
  deriving DecidableEq, Repr

/-- Embeds the `MemStackTxn` constructor: copy the stack into `#snap`,
read `readOnly` from the options, and — when the context carries a
canceler — bind `#cancel` as `#onCancel` and subscribe it
(`clr.onCancel(...)`). -/
def MemStackTxn.init (V : Type) (stack : List V) (ro : Bool)
    (clr : Option Canceler) (lid : Nat) : MemStackTxn V × Option Canceler :=
  match clr with
  | none =>
    ({ lid := lid, snap := stack, ops := [], rdonly := ro, done := false,
        hasOnCancel := false }, none)
  | some c =>
    ({ lid := lid, snap := stack, ops := [], rdonly := ro, done := false,
        hasOnCancel := true }, some (c.subscribe lid))

/-- Replay of one buffered stack op in `MemStackTxn.commit`. -/
def applyStackOp {V : Type} (st : List V) : StackOp V → List V
  | .push v => st ++ [v]
  | .pop => st.dropLast

/-- Embeds `MemStackTxn.#cancel` (the subscribed listener): if
`#onCancel` is still bound, unsubscribe it from the canceler and clear
it; then, if the transaction is not already done, roll it back
(`rollback` marks it done and leaves the shared stack untouched; its
trailing `#complete` re-enters `#cancel`, which is now a no-op). -/
def MemStackTxn.cancelSignal {V : Type} (t : MemStackTxn V) (clr : Canceler)
    (stack : List V) : MemStackTxn V × Canceler × List V :=
  let clr1 := if t.hasOnCancel then clr.off t.lid else clr
  let t1 := { t with hasOnCancel := false }
  if t1.done then (t1, clr1, stack)
  else ({ t1 with done := true }, clr1, stack)

/-- Embeds `MemStackTxn.commit`: throw if done; set `#done`; replay the
buffered ops onto the shared stack; then `#complete` unsubscribes the
cancellation listener (through `#cancel`, whose rollback branch is
skipped because the transaction is already done). -/
def MemStackTxn.commit {V : Type} (t : MemStackTxn V) (clr : Canceler)
    (stack : List V) : Except KvErr (MemStackTxn V × Canceler × List V) :=
  if t.done then .error .txnComplete
  else
    .ok ({ t with done := true, hasOnCancel := false },
      if t.hasOnCancel then clr.off t.lid else clr,
      t.ops.foldl applyStackOp stack)

/-- Embeds `MemStackTxn.rollback`: throw if done; set `#done`; leave the
shared stack untouched; `#complete` unsubscribes the listener as in
commit. -/
def MemStackTxn.rollback {V : Type} (t : MemStackTxn V) (clr : Canceler)
    (stack : List V) : Except KvErr (MemStackTxn V × Canceler × List V) :=
  if t.done then .error .txnComplete
  else
    .ok ({ t with done := true, hasOnCancel := false },
      if t.hasOnCancel then clr.off t.lid else clr,
      stack)

/-- Embeds `MemKvConn.beginTxn` with the ambient context's canceler made
explicit: the method reads nothing from `ctx` — no listener is
subscribed, the canceler is returned exactly as received — and the
constructed `MemKvTxn` (unlike `MemStackTxn`) carries no cancellation
machinery at all. -/
def MemKvConnSt.beginTxnWithClr (V : Type) (c : MemKvConnSt) (clr : Canceler)
    (ro : Bool) : Except KvErr (MemKvTxn V × MemKvConnSt × Canceler) :=
  if c.closed then .error .connClosed else .ok (MemKvTxn.init V ro, c, clr)

/-! ## Claim C9 -/

/-- C9: counterexample to the claim as stated over every transaction of
the engine.  Beginning a key-value transaction on an open `MemKvConn`
with a context whose canceler has no listeners subscribes nothing: the
canceler comes back with its listener list still empty, because
`MemKvConn.beginTxn` never touches `ctx` and `MemKvTxn` has no
cancellation machinery, so no listener can ever roll this transaction
back when the signal fires. -/
theorem memKvTxn_no_cancel_listener_counterexample :
    (MemKvConnSt.beginTxnWithClr Nat ⟨0, false, true, false, none⟩ ⟨[]⟩ false =
      .ok (MemKvTxn.init Nat false, ⟨0, false, true, false, none⟩, ⟨[]⟩))
    ∧ ((⟨[]⟩ : Canceler).listeners.length = 0) :=
  ⟨rfl, rfl⟩

/-- C9 (amended): for every stack-store transaction (`MemStackTxn`)
begun with a context carrying a cancellation signal, the constructor
subscribes a listener at transaction-begin time; when the signal fires
on a not-yet-done transaction the listener rolls it back (marking it
done, leaving the shared stack untouched) and deregisters itself; when
the signal fires on an already-done transaction no rollback is
attempted; on normal completion by commit or rollback the listener is
deregistered from the canceler (subscribing then unsubscribing restores
the canceler's original listener list); the in-memory key-value
transaction, by contrast, subscribes no listener at all. -/
theorem memStackTxn_cancel_listener {V : Type} (stack st2 : List V) (ro : Bool)
    (clr : Canceler) (lid : Nat) (t : MemStackTxn V) (l : List Nat)
    (hnd : t.done = false) (hoc : t.hasOnCancel = true) (hl : lid ∉ l) :
    (MemStackTxn.init V stack ro (some clr) lid =
      ({ lid := lid, snap := stack, ops := [], rdonly := ro, done := false,
          hasOnCancel := true }, some (clr.subscribe lid)))
    ∧ ((clr.subscribe lid).listeners = clr.listeners ++ [lid])
    ∧ (t.cancelSignal clr st2 =
        ({ t with done := true, hasOnCancel := false }, clr.off t.lid, st2))
    ∧ (∀ t' : MemStackTxn V, t'.done = true →
        t'.cancelSignal clr st2 =
          ({ t' with hasOnCancel := false },
            if t'.hasOnCancel then clr.off t'.lid else clr, st2))
    ∧ (MemStackTxn.commit t clr st2 =
        .ok ({ t with done := true, hasOnCancel := false }, clr.off t.lid,
          t.ops.foldl applyStackOp st2))
    ∧ (MemStackTxn.rollback t clr st2 =
        .ok ({ t with done := true, hasOnCancel := false }, clr.off t.lid, st2))
    ∧ ((Canceler.off (Canceler.subscribe ⟨l⟩ lid) lid).listeners = l) := by
  refine ⟨rfl, rfl, ?_, ?_, ?_, ?_, ?_⟩
  · simp [MemStackTxn.cancelSignal, hnd, hoc]
  · intro t' hd'
    simp [MemStackTxn.cancelSignal, hd']
  · simp [MemStackTxn.commit, hnd, hoc]
  · simp [MemStackTxn.rollback, hnd, hoc]
  · simp [Canceler.off, Canceler.subscribe, List.erase_append_right _ hl]

/-- C9 witness at concrete inputs: a fresh live stack transaction with
listener id 4 on a canceler that already has listener 9. -/
theorem memStackTxn_cancel_listener_witness :
    ((⟨4, [1, 2], [], false, false, true⟩ : MemStackTxn Nat).done = false)
    ∧ ((⟨4, [1, 2], [], false, false, true⟩ : MemStackTxn Nat).hasOnCancel = true)
    ∧ ((4 : Nat) ∉ [9])
    ∧ ((MemStackTxn.init Nat [1, 2] false (some ⟨[9]⟩) 4 =
        ({ lid := 4, snap := [1, 2], ops := [], rdonly := false, done := false,
            hasOnCancel := true }, some (Canceler.subscribe ⟨[9]⟩ 4)))
      ∧ ((Canceler.subscribe ⟨[9]⟩ 4).listeners = Canceler.listeners ⟨[9]⟩ ++ [4])
      ∧ (MemStackTxn.cancelSignal (⟨4, [1, 2], [], false, false, true⟩ : MemStackTxn Nat)
          ⟨[9]⟩ [1, 2] =
          ({ (⟨4, [1, 2], [], false, false, true⟩ : MemStackTxn Nat) with
              done := true, hasOnCancel := false },
            Canceler.off ⟨[9]⟩ (⟨4, [1, 2], [], false, false, true⟩ : MemStackTxn Nat).lid,
            [1, 2]))
      ∧ (∀ t' : MemStackTxn Nat, t'.done = true →
          t'.cancelSignal ⟨[9]⟩ [1, 2] =
            ({ t' with hasOnCancel := false },
              if t'.hasOnCancel then Canceler.off ⟨[9]⟩ t'.lid else ⟨[9]⟩, [1, 2]))
      ∧ (MemStackTxn.commit (⟨4, [1, 2], [], false, false, true⟩ : MemStackTxn Nat)
          ⟨[9]⟩ [1, 2] =
          .ok ({ (⟨4, [1, 2], [], false, false, true⟩ : MemStackTxn Nat) with
              done := true, hasOnCancel := false },
            Canceler.off ⟨[9]⟩ (⟨4, [1, 2], [], false, false, true⟩ : MemStackTxn Nat).lid,
            (⟨4, [1, 2], [], false, false, true⟩ : MemStackTxn Nat).ops.foldl
              applyStackOp [1, 2]))
      ∧ (MemStackTxn.rollback (⟨4, [1, 2], [], false, false, true⟩ : MemStackTxn Nat)
          ⟨[9]⟩ [1, 2] =
          .ok ({ (⟨4, [1, 2], [], false, false, true⟩ : MemStackTxn Nat) with
              done := true, hasOnCancel := false },
            Canceler.off ⟨[9]⟩ (⟨4, [1, 2], [], false, false, true⟩ : MemStackTxn Nat).lid,
            [1, 2]))
      ∧ ((Canceler.off (Canceler.subscribe ⟨[9]⟩ 4) 4).listeners = [9])) :=
  ⟨rfl, rfl, by decide,
    memStackTxn_cancel_listener [1, 2] [1, 2] false ⟨[9]⟩ 4
      ⟨4, [1, 2], [], false, false, true⟩ [9] rfl rfl (by decide)⟩

end StoragePoolSpec
